import Mathlib

/-!
# PipeWire server node core (`pipewire/server/node.c`)

A shallow embedding of the node lifecycle code: port-set reconciliation
(`update_port_ids`), free-port selection (`pw_node_get_free_port`), the state
machine (`pw_node_set_state`, `on_state_complete`, `pw_node_update_state`) and
construction (`pw_node_new`, `init_complete`).

Pointers to heap objects are modelled by values carrying a `uid`; intrusive
circular lists (`struct spa_list`) are modelled by Lean lists read from the
head's `next` to the tail; everything the node calls out to (the processing
element, the port layer, the allocator) is an explicit argument, and every
observable action is appended to the node's `trace`.
-/

namespace Pipewire

/-! ## Data model -/

/-- Port direction (`enum pw_direction`). -/
inductive pw_direction where
  | INPUT
  | OUTPUT
deriving DecidableEq, Repr

/-- Node states (`enum pw_node_state`). -/
inductive pw_node_state where
  | ERROR
  | CREATING
  | SUSPENDED
  | IDLE
  | RUNNING
deriving DecidableEq, Repr

/-- Modelled from the spec: the numeric values of `enum pw_node_state` live in a
header that is not among the sources; the spec orders the states
creating, suspended, idle, running with an error sink, and `pause_node`
compares them with `<=`. The values are those of the PipeWire header. -/
def pw_node_state.toInt : pw_node_state → Int
  | .ERROR => -1
  | .CREATING => 0
  | .SUSPENDED => 1
  | .IDLE => 2
  | .RUNNING => 3

/-- A port object (`struct pw_port`), as far as `node.c` reads it. `uid` stands
for the address of the allocation, `links` for the list of attached links and
`multiplex` for the multiplex pointer (`none` is `NULL`). -/
structure pw_port where
  uid : Nat
  direction : pw_direction
  port_id : Nat
  links : List Nat
  multiplex : Option Nat
deriving DecidableEq, Repr

/-- The published info block (`struct pw_node_info`). -/
structure pw_node_info where
  id : Nat
  name : String
  state : pw_node_state
  error : Option String
  n_input_ports : Nat
  max_input_ports : Nat
  n_output_ports : Nat
  max_output_ports : Nat
  input_formats : List Nat
  output_formats : List Nat
  props : Option (List (String × String))
  change_mask : Nat
deriving DecidableEq, Repr

/-- Commands sent to the processing element. -/
inductive spa_command where
  | Pause
  | Start
  | ClockUpdate
deriving DecidableEq, Repr

/-- Observable actions of the node: signal emissions, notifications to bound
resources, and calls out to the port layer and the processing element.
`port_added` and `port_removed` carry what an observer sees of the direction's
port list and index at the moment of emission. -/
inductive Event where
  | port_new (p : pw_port)
  | port_destroy (p : pw_port)
  | port_bind_slot (d : pw_direction) (port_id : Nat)
  | element_add_port (d : pw_direction) (port_id : Nat)
  | port_set_format (p : pw_port)
  | link_activate (link : Nat)
  | send_command (c : spa_command)
  | graph_node_add
  | add_global
  | port_added (p : pw_port) (ports : List pw_port) (map : List (Option pw_port))
  | port_removed (p : pw_port) (ports : List pw_port) (map : List (Option pw_port))
  | state_request (s : pw_node_state)
  | state_changed (old new : pw_node_state)
  | sig_initialized
  | async_complete (seq : Nat) (res : Int)
  | notify_info (resource : Nat) (info : pw_node_info)
deriving DecidableEq, Repr

/-- The closures `node.c` hands to the work queue. -/
inductive pw_work_func where
  | init_complete
  | on_state_complete (state : pw_node_state)
deriving DecidableEq, Repr

/-- A pending work item: the sequence number awaited and the closure. -/
structure work_item where
  seq : Nat
  func : pw_work_func
deriving DecidableEq, Repr

/-- The node (`struct impl` with its embedded `struct pw_node`). -/
structure pw_node where
  info : pw_node_info
  properties : Option (List (String × String))
  input_ports : List pw_port
  output_ports : List pw_port
  input_port_map : List (Option pw_port)
  output_port_map : List (Option pw_port)
  resource_list : List Nat
  global : Option Nat
  async_init : Bool
  work : List work_item
  next_uid : Nat
  trace : List Event
deriving DecidableEq, Repr

/-- The processing element (`struct spa_node`) as it answers during one call:
its info items, the authoritative port lists (`spa_node_get_n_ports` reports
the lengths and the maxima, `spa_node_get_port_ids` the ids), its formats, and
the results of the calls the node makes into it. -/
structure spa_node where
  info : Option (List (String × String))
  max_input_ports : Nat
  input_port_ids : List Nat
  max_output_ports : Nat
  output_port_ids : List Nat
  input_formats : List Nat
  output_formats : List Nat
  add_port : pw_direction → Nat → Int
  send_command : spa_command → Int

/-- Everything outside `node.c` that one call into the node can meet: the
processing element, the result of `pw_port_set_format(p, 0, NULL)` for each
port, whether the allocations succeed (`pw_port_new` in
`pw_node_get_free_port`, the `calloc` of the node, `pw_properties_new`), and
the id `pw_core_add_global` hands out. -/
structure Peers where
  node : spa_node
  port_set_format : pw_port → Int
  port_alloc : pw_direction → Nat → Bool
  impl_alloc : Bool
  props_alloc : Bool
  global_id : Nat

/-! ## Collaborators that are not part of `node.c` -/

/-- Modelled from the spec: `pw_port_new` of the port layer. It constructs a port
`(direction, port_id)` with an empty link list and no multiplex marker; `uid`
is the fresh allocation. -/
def pw_port_new (direction : pw_direction) (port_id uid : Nat) : pw_port :=
  { uid := uid, direction := direction, port_id := port_id, links := [], multiplex := none }

/-- Modelled from the spec: `pw_port_destroy` of the port layer takes the port
out of its node's sequence (destroying a port leaves no trace of it in the
set) and frees it. -/
def pw_port_destroy (ports : List pw_port) (p : pw_port) : List pw_port :=
  ports.erase p

/-- Modelled from the spec: `SPA_RESULT_IS_ERROR`, a negative result. -/
def SPA_RESULT_IS_ERROR (res : Int) : Bool := decide (res < 0)

/-- Modelled from the spec: `SPA_RESULT_IS_ASYNC`, the result is an async
marker. The macro is not among the sources; the marker is bit 30 with bit 31
clear, the low 30 bits being the sequence number. -/
def SPA_RESULT_IS_ASYNC (res : Int) : Bool := decide (0 ≤ res ∧ (res / 2 ^ 30) % 4 = 1)

/-- Modelled from the spec: `SPA_RESULT_ASYNC_SEQ`, the sequence number of an
async marker. -/
def SPA_RESULT_ASYNC_SEQ (res : Int) : Nat := (res % 2 ^ 30).toNat

/-- Modelled from the spec: `SPA_RESULT_RETURN_ASYNC(seq)`. -/
def SPA_RESULT_RETURN_ASYNC (seq : Nat) : Int := 2 ^ 30 + (seq % 2 ^ 30 : Nat)

/-- Modelled from the spec: `SPA_RESULT_OK`, the successful immediate result. -/
def SPA_RESULT_OK : Int := 0

/-- Modelled from the spec: `SPA_RESULT_ERROR`, the generic negative error
result; the macro is not among the sources. -/
def SPA_RESULT_ERROR : Int := -1

/-! ## `update_port_ids` -/

/-- The part of the machine state one reconciliation loop works on. The cursor
`ports` of the C loop points either at a port or at the list head; `pre` holds
the ports in front of the cursor, the ports from the cursor on are the list
argument of the loop functions (empty when the cursor is the list head), so
the whole sequence is `pre ++ post`. -/
structure port_walk where
  pre : List pw_port
  map : List (Option pw_port)
  next_uid : Nat
  trace : List Event
deriving DecidableEq, Repr

/-- The loop of `update_port_ids` once the authority's ids are used up
(`i < n_ports` is false): the third arm removes the port under the cursor
(clear the index entry, advance, emit `port_removed` unless `async_init`,
destroy), the fourth arm leaves the loop when the cursor is the list head. -/
def update_ports_drain (async_init : Bool) : List pw_port → port_walk → port_walk
  | [], w => w
  | p :: rest, w =>
    let map := w.map.set p.port_id none
    let tr := if !async_init then w.trace ++ [Event.port_removed p (w.pre ++ p :: rest) map]
              else w.trace
    update_ports_drain async_init rest
      { w with map := map, trace := tr ++ [Event.port_destroy p] }

/-- One reconciliation loop of `update_port_ids`, for one direction. The first
argument is what is left of the authority's id array (`ids[i..n)`, so
`i < n_ports` is "the list is non-empty"), the second the ports from the
cursor on (`p` is its head, `NULL` when it is empty).

* first arm, `p && i < n && p->port_id == ids[i]`: index `p`, advance both;
* second arm, `(p && i < n && ids[i] < p->port_id) || i < n`, that is `i < n`:
  create the port, bind its slot, `spa_list_insert(ports, &np->link)` links it
  directly after the cursor (after `p`, or after the list head, which is the
  front of the sequence), the cursor moves to `np->link.next`, index it, emit
  `port_added` unless `async_init`;
* otherwise the ids are used up, see `update_ports_drain`. -/
def update_ports_walk (d : pw_direction) (async_init : Bool) :
    List Nat → List pw_port → port_walk → port_walk
  | [], post, w => update_ports_drain async_init post w
  | id :: ids, p :: rest, w =>
    if p.port_id = id then
      update_ports_walk d async_init ids rest
        { w with pre := w.pre ++ [p], map := w.map.set p.port_id (some p) }
    else
      let np := pw_port_new d id w.next_uid
      let map := w.map.set np.port_id (some np)
      let tr := w.trace ++ [Event.port_new np, Event.port_bind_slot d np.port_id]
      let tr := if !async_init then tr ++ [Event.port_added np (w.pre ++ p :: np :: rest) map]
                else tr
      update_ports_walk d async_init ids rest
        { pre := w.pre ++ [p, np], map := map, next_uid := w.next_uid + 1, trace := tr }
  | id :: ids, [], w =>
    let np := pw_port_new d id w.next_uid
    let map := w.map.set np.port_id (some np)
    let tr := w.trace ++ [Event.port_new np, Event.port_bind_slot d np.port_id]
    let tr := if !async_init then tr ++ [Event.port_added np (np :: w.pre) map] else tr
    update_ports_walk d async_init ids w.pre
      { pre := [np], map := map, next_uid := w.next_uid + 1, trace := tr }

/-- Reconciliation of both port sets with the element (`update_port_ids`).
`e = none` is `node->node == NULL`. The counts and maxima are copied into the
info block, both index arrays are allocated afresh (`calloc`, all `NULL`), and
each loop starts with the cursor on the list head. -/
def update_port_ids (e : Option spa_node) (node : pw_node) : pw_node :=
  match e with
  | none => node
  | some e =>
    let info := { node.info with
      n_input_ports := e.input_port_ids.length
      max_input_ports := e.max_input_ports
      n_output_ports := e.output_port_ids.length
      max_output_ports := e.max_output_ports }
    let wi := update_ports_walk .INPUT node.async_init e.input_port_ids []
      { pre := node.input_ports, map := List.replicate e.max_input_ports none,
        next_uid := node.next_uid, trace := node.trace }
    let wo := update_ports_walk .OUTPUT node.async_init e.output_port_ids []
      { pre := node.output_ports, map := List.replicate e.max_output_ports none,
        next_uid := wi.next_uid, trace := wi.trace }
    { node with
      info := info
      input_ports := wi.pre
      input_port_map := wi.map
      output_ports := wo.pre
      output_port_map := wo.map
      next_uid := wo.next_uid
      trace := wo.trace }

/-! ## `pw_node_get_free_port` -/

/-- The variables of the creation loop of `pw_node_get_free_port`: the local
`port`, the direction's list, index and `*n_ports`. -/
structure free_port_scan where
  port : Option pw_port
  ports : List pw_port
  portmap : List (Option pw_port)
  n_ports : Nat
  next_uid : Nat
  trace : List Event
deriving DecidableEq, Repr

/-- The loop `for (i = 0; i < max_ports; i++)` of `pw_node_get_free_port`, over
the slots still to visit. At an empty slot the port is allocated (`goto no_mem`
returns `NULL` when that fails) and linked directly after the list head with
`spa_list_insert(ports, &port->link)`; when the element refuses `add_port` the
port is destroyed and the loop continues with the next slot, the local `port`
still holding the destroyed port; otherwise the slot is bound, `*n_ports` is
incremented, the port is indexed and the loop is left. -/
def get_free_port_scan (w : Peers) (d : pw_direction) :
    List Nat → free_port_scan → free_port_scan
  | [], s => s
  | i :: slots, s =>
    if s.portmap.getD i none = none then
      if w.port_alloc d i = false then
        { s with port := none }
      else
        let port := pw_port_new d i s.next_uid
        let ports := port :: s.ports
        let tr := s.trace ++ [Event.port_new port, Event.element_add_port d i]
        if w.node.add_port d i < 0 then
          get_free_port_scan w d slots
            { s with
              port := some port
              ports := pw_port_destroy ports port
              next_uid := s.next_uid + 1
              trace := tr ++ [Event.port_destroy port] }
        else
          { port := some port
            ports := ports
            portmap := s.portmap.set i (some port)
            n_ports := s.n_ports + 1
            next_uid := s.next_uid + 1
            trace := tr ++ [Event.port_bind_slot d i] }
    else
      get_free_port_scan w d slots s

/-- The port list of a direction (`ports = &node->input_ports` or
`&node->output_ports`). -/
def dir_ports (node : pw_node) (direction : pw_direction) : List pw_port :=
  if direction = .INPUT then node.input_ports else node.output_ports

/-- The index of a direction (`portmap`). -/
def dir_portmap (node : pw_node) (direction : pw_direction) : List (Option pw_port) :=
  if direction = .INPUT then node.input_port_map else node.output_port_map

/-- The port count of a direction (`*n_ports`). -/
def dir_n_ports (node : pw_node) (direction : pw_direction) : Nat :=
  if direction = .INPUT then node.info.n_input_ports else node.info.n_output_ports

/-- The port capacity of a direction (`max_ports`). -/
def dir_max_ports (node : pw_node) (direction : pw_direction) : Nat :=
  if direction = .INPUT then node.info.max_input_ports else node.info.max_output_ports

/-- Find an unused port of `node` in `direction` (`pw_node_get_free_port`); the
result is the returned pointer and the node afterwards. -/
def pw_node_get_free_port (w : Peers) (node : pw_node) (direction : pw_direction) :
    Option pw_port × pw_node :=
  let max_ports := dir_max_ports node direction
  let n_ports := dir_n_ports node direction
  let ports := dir_ports node direction
  let portmap := dir_portmap node direction
  match ports.find? (fun p => p.links.isEmpty) with
  | some p => (some p, node)
  | none =>
    if n_ports < max_ports then
      let s := get_free_port_scan w direction (List.range max_ports)
        { port := none, ports := ports, portmap := portmap, n_ports := n_ports,
          next_uid := node.next_uid, trace := node.trace }
      if direction = .INPUT then
        (s.port, { node with
          info := { node.info with n_input_ports := s.n_ports }
          input_ports := s.ports
          input_port_map := s.portmap
          next_uid := s.next_uid
          trace := s.trace })
      else
        (s.port, { node with
          info := { node.info with n_output_ports := s.n_ports }
          output_ports := s.ports
          output_port_map := s.portmap
          next_uid := s.next_uid
          trace := s.trace })
    else
      match ports with
      | [] => (none, node)
      | first :: _ =>
        if direction = .INPUT ∧ first.multiplex = none then (none, node)
        else (some first, node)

/-! ## State machine -/

/-- Publish a new state (`pw_node_update_state`): nothing happens when the
state is the published one; otherwise error and state are replaced,
`state_changed(old, new)` is emitted, the change mask becomes `1 << 5` and
every bound resource is notified. -/
def pw_node_update_state (node : pw_node) (state : pw_node_state) (error : Option String) :
    pw_node :=
  let old := node.info.state
  if old ≠ state then
    let info := { node.info with error := error, state := state, change_mask := 1 <<< 5 }
    { node with
      info := info
      trace := node.trace ++ [Event.state_changed old state]
        ++ node.resource_list.map (fun r => Event.notify_info r info) }
  else node

/-- The diagnostic `asprintf(&error, "error changing node state: %d", res)`. -/
def state_error_string (res : Int) : String :=
  "error changing node state: " ++ toString res

/-- The completion closure of a state request (`on_state_complete`); `state`
is the target latched in `data`. -/
def on_state_complete (node : pw_node) (state : pw_node_state) (res : Int) : pw_node :=
  if SPA_RESULT_IS_ERROR res then
    pw_node_update_state node .ERROR (some (state_error_string res))
  else
    pw_node_update_state node state none

/-- The command `pause_node`: a no-op at or below Idle, otherwise the Pause
command goes to the element. -/
def pause_node (w : Peers) (node : pw_node) : Int × pw_node :=
  if node.info.state.toInt ≤ pw_node_state.IDLE.toInt then (SPA_RESULT_OK, node)
  else
    (w.node.send_command .Pause,
     { node with trace := node.trace ++ [Event.send_command .Pause] })

/-- The command `start_node`. -/
def start_node (w : Peers) (node : pw_node) : Int × pw_node :=
  (w.node.send_command .Start,
   { node with trace := node.trace ++ [Event.send_command .Start] })

/-- One `spa_list_for_each` loop of `suspend_node`: `res` is overwritten with
the result of every port in turn. -/
def suspend_ports (w : Peers) : List pw_port → Int → Int
  | [], res => res
  | p :: rest, _ => suspend_ports w rest (w.port_set_format p)

/-- The command `suspend_node`: clear the format of every input port, then of
every output port. -/
def suspend_node (w : Peers) (node : pw_node) : Int × pw_node :=
  let res := suspend_ports w node.input_ports SPA_RESULT_OK
  let res := suspend_ports w node.output_ports res
  (res, { node with
    trace := node.trace ++ (node.input_ports ++ node.output_ports).map Event.port_set_format })

/-- The command `send_clock_update`; its result is only logged. -/
def send_clock_update (node : pw_node) : pw_node :=
  { node with trace := node.trace ++ [Event.send_command .ClockUpdate] }

/-- Activate every link of every port (`node_activate`). -/
def node_activate (node : pw_node) : pw_node :=
  { node with
    trace := node.trace
      ++ (node.input_ports.map (fun p => p.links.map Event.link_activate)).flatten
      ++ (node.output_ports.map (fun p => p.links.map Event.link_activate)).flatten }

/-- Refresh the published info (`update_info`): the id of the global, copies of
the formats the element enumerates, the property dictionary. -/
def update_info (w : Peers) (node : pw_node) : pw_node :=
  { node with
    info := { node.info with
      id := node.global.getD 0
      input_formats := w.node.input_formats
      output_formats := w.node.output_formats
      props := node.properties } }

/-- Deferred completion of construction (`init_complete`). -/
def init_complete (w : Peers) (node : pw_node) : pw_node :=
  let node := { node with trace := node.trace ++ [Event.graph_node_add] }
  let node := update_port_ids (some w.node) node
  let node := { node with async_init := false }
  let node := { node with global := some w.global_id, trace := node.trace ++ [Event.add_global] }
  let node := update_info w node
  let node := { node with trace := node.trace ++ [Event.sig_initialized] }
  pw_node_update_state node .SUSPENDED none

/-- Run a closure of the work queue with the outcome `res`. -/
def work_invoke (w : Peers) (func : pw_work_func) (res : Int) (node : pw_node) : pw_node :=
  match func with
  | .init_complete => init_complete w node
  | .on_state_complete state => on_state_complete node state res

/-- Modelled from the spec: `pw_work_queue_add` of the work queue, which is not
among the sources. "If `seq` denotes an immediate (non-async) result, `fn` is
invoked before returning; if `seq` is an async-marker, the call is queued." -/
def pw_work_queue_add (w : Peers) (node : pw_node) (res : Int) (func : pw_work_func) : pw_node :=
  if SPA_RESULT_IS_ASYNC res then
    { node with work := node.work ++ [{ seq := SPA_RESULT_ASYNC_SEQ res, func := func }] }
  else work_invoke w func res node

/-- Modelled from the spec: `pw_work_queue_complete` of the work queue, which
"dispatches (at most) the matching pending item, passing `result` as the
outcome". -/
def pw_work_queue_complete (w : Peers) (node : pw_node) (seq : Nat) (res : Int) : pw_node :=
  match node.work.find? (fun it => it.seq = seq) with
  | none => node
  | some it => work_invoke w it.func res { node with work := node.work.erase it }

/-- The element's async-done callback (`on_node_done`). -/
def on_node_done (w : Peers) (node : pw_node) (seq : Nat) (res : Int) : pw_node :=
  let node := pw_work_queue_complete w node seq res
  { node with trace := node.trace ++ [Event.async_complete seq res] }

/-- Request a state (`pw_node_set_state`): the returned result and the node
afterwards. -/
def pw_node_set_state (w : Peers) (node : pw_node) (state : pw_node_state) : Int × pw_node :=
  let node := { node with trace := node.trace ++ [Event.state_request state] }
  match state with
  | .CREATING => (SPA_RESULT_ERROR, node)
  | _ =>
    let r : Int × pw_node :=
      match state with
      | .SUSPENDED => suspend_node w node
      | .IDLE => pause_node w node
      | .RUNNING => start_node w (send_clock_update (node_activate node))
      | _ => (SPA_RESULT_OK, node)
    if SPA_RESULT_IS_ERROR r.1 then (r.1, r.2)
    else (r.1, pw_work_queue_add w r.2 r.1 (.on_state_complete state))

/-! ## Construction -/

/-- What a call of `pw_node_new` comes to: a node, `NULL`, or a fault (the
items of the element's info are set on a `NULL` property bag). -/
inductive new_result where
  | node (n : pw_node)
  | null
  | fault
deriving DecidableEq, Repr

/-- The tail of `pw_node_new`, from `impl->async_init = async` on:
`init_complete` runs at once, or is queued against
`SPA_RESULT_RETURN_ASYNC(0)`. -/
def pw_node_new_finish (w : Peers) (this : pw_node) (async : Bool) : pw_node :=
  let this := { this with async_init := async }
  if async then pw_work_queue_add w this (SPA_RESULT_RETURN_ASYNC 0) .init_complete
  else init_complete w this

/-- The freshly allocated node of `pw_node_new` once its fields are set: named,
holding the caller's property bag, published as Creating, with empty port
lists and an empty work queue. -/
def node_init (name : String) (properties : Option (List (String × String))) : pw_node :=
  { info :=
      { id := 0, name := name, state := .CREATING, error := none,
        n_input_ports := 0, max_input_ports := 0, n_output_ports := 0,
        max_output_ports := 0, input_formats := [], output_formats := [],
        props := none, change_mask := 0 }
    properties := properties
    input_ports := []
    output_ports := []
    input_port_map := []
    output_port_map := []
    resource_list := []
    global := none
    async_init := false
    work := []
    next_uid := 0
    trace := [] }

/-- Construct a node (`pw_node_new`). The node is allocated (`NULL` when that
fails) and initialised. When the element carries info: a missing bag is
created with `pw_properties_new`; `if (this->properties) goto no_mem` returns
`NULL` whenever there is a bag; otherwise every item is set on the `NULL`
bag. -/
def pw_node_new (w : Peers) (name : String) (async : Bool)
    (properties : Option (List (String × String))) : new_result :=
  if w.impl_alloc = false then .null
  else
    match w.node.info with
    | none => .node (pw_node_new_finish w (node_init name properties) async)
    | some items =>
      let props :=
        if properties = none then (if w.props_alloc then some [] else none)
        else properties
      match props with
      | some _ => .null
      | none =>
        if items = [] then .node (pw_node_new_finish w (node_init name none) async)
        else .fault

/-! ## Concrete elements and nodes used in the scenarios -/

/-- An element without info and without output ports: `max_in` input slots,
the input ids `in_ids`, `add_port` answering `add_res` and every command
answering `cmd_res`. -/
def plain_element (max_in : Nat) (in_ids : List Nat) (add_res cmd_res : Int) : spa_node :=
  { info := none
    max_input_ports := max_in
    input_port_ids := in_ids
    max_output_ports := 0
    output_port_ids := []
    input_formats := []
    output_formats := []
    add_port := fun _ _ => add_res
    send_command := fun _ => cmd_res }

/-- The surroundings of `plain_element` in which every allocation succeeds
and every format clear answers 0. -/
def plain_peers (max_in : Nat) (in_ids : List Nat) (add_res cmd_res : Int) : Peers :=
  { node := plain_element max_in in_ids add_res cmd_res
    port_set_format := fun _ => 0
    port_alloc := fun _ _ => true
    impl_alloc := true
    props_alloc := true
    global_id := 1 }

/-- An input port with one attached link and no multiplex marker. -/
def linked_input (uid port_id : Nat) : pw_port :=
  { uid := uid, direction := .INPUT, port_id := port_id, links := [1], multiplex := none }

/-- A published, suspended node holding the input ports `ports` under the
index `map`, with `n` ports counted out of `max`, and no output side. -/
def input_node (ports : List pw_port) (map : List (Option pw_port)) (n max uid : Nat) :
    pw_node :=
  { info :=
      { id := 1, name := "node", state := .SUSPENDED, error := none,
        n_input_ports := n, max_input_ports := max, n_output_ports := 0,
        max_output_ports := 0, input_formats := [], output_formats := [],
        props := none, change_mask := 0 }
    properties := none
    input_ports := ports
    output_ports := []
    input_port_map := map
    output_port_map := []
    resource_list := []
    global := some 1
    async_init := false
    work := []
    next_uid := uid
    trace := [] }

/-- A node with empty port sets. -/
def node_empty : pw_node := input_node [] [] 0 0 0

/-- The node of scenario S1 as the spec describes it: input ports 0, 2, 5 in
ascending order, indexed, out of 8. -/
def node_S1 : pw_node :=
  input_node [linked_input 0 0, linked_input 1 2, linked_input 2 5]
    [some (linked_input 0 0), none, some (linked_input 1 2), none, none,
      some (linked_input 2 5), none, none] 3 8 3

/-- A node with the single input port 0, out of 1. -/
def node_one_port : pw_node :=
  input_node [linked_input 0 0] [some (linked_input 0 0)] 1 1 1

/-- A node with the single linked input port 0, out of 2. -/
def node_one_of_two : pw_node :=
  input_node [linked_input 0 0] [some (linked_input 0 0), none] 1 2 1

/-- The node of scenario S5: two linked input ports, out of 2, no multiplex. -/
def node_S5 : pw_node :=
  input_node [linked_input 0 0, linked_input 1 1]
    [some (linked_input 0 0), some (linked_input 1 1)] 2 2 2

/-! ## The port-set invariant -/

/-- The port-set invariant of one direction as the spec words it: the sequence
is strictly ascending by `port_id`, every port of the sequence is the entry of
the index at its `port_id`, and the sequence length is `n_ports`, at most
`max_ports`. -/
def port_set_inv (ports : List pw_port) (map : List (Option pw_port))
    (n_ports max_ports : Nat) : Prop :=
  List.Pairwise (fun a b => a < b) (ports.map (fun p => p.port_id))
  ∧ (∀ p ∈ ports, map.getD p.port_id none = some p)
  ∧ ports.length = n_ports
  ∧ n_ports ≤ max_ports

instance (ports : List pw_port) (map : List (Option pw_port)) (n_ports max_ports : Nat) :
    Decidable (port_set_inv ports map n_ports max_ports) := by
  unfold port_set_inv
  infer_instance

/-- The spec's port-set invariant for both directions of a node. -/
def node_port_inv (node : pw_node) : Prop :=
  port_set_inv node.input_ports node.input_port_map
    node.info.n_input_ports node.info.max_input_ports
  ∧ port_set_inv node.output_ports node.output_port_map
    node.info.n_output_ports node.info.max_output_ports

instance (node : pw_node) : Decidable (node_port_inv node) := by
  unfold node_port_inv
  infer_instance

/-- The port-set invariant with "strictly ascending" weakened to "pairwise
distinct port ids", the index having `max_ports` slots. -/
def port_set_wf (ports : List pw_port) (map : List (Option pw_port))
    (n_ports max_ports : Nat) : Prop :=
  (ports.map (fun p => p.port_id)).Nodup
  ∧ (∀ p ∈ ports, map.getD p.port_id none = some p)
  ∧ ports.length = n_ports
  ∧ n_ports ≤ max_ports
  ∧ map.length = max_ports

instance (ports : List pw_port) (map : List (Option pw_port)) (n_ports max_ports : Nat) :
    Decidable (port_set_wf ports map n_ports max_ports) := by
  unfold port_set_wf
  infer_instance

/-- The weakened port-set invariant for both directions of a node. -/
def node_port_wf (node : pw_node) : Prop :=
  port_set_wf node.input_ports node.input_port_map
    node.info.n_input_ports node.info.max_input_ports
  ∧ port_set_wf node.output_ports node.output_port_map
    node.info.n_output_ports node.info.max_output_ports

instance (node : pw_node) : Decidable (node_port_wf node) := by
  unfold node_port_wf
  infer_instance

/-! ## Reading traces and results -/

/-- Whether an action is an emission of the `port_added` signal. -/
def is_port_added : Event → Bool
  | .port_added _ _ _ => true
  | _ => false

/-- The node a call of `pw_node_new` returned, if it returned one. -/
def new_result.node? : new_result → Option pw_node
  | .node n => some n
  | _ => none

/-! ## Runs of the state machine -/

/-- What can happen to a constructed node from outside: a state request, or the
element reporting an async sequence number done with a result (which runs the
matching pending completion, `init_complete` included). Each carries the
surroundings as they are at that moment. -/
inductive node_op where
  | set_state (w : Peers) (state : pw_node_state)
  | node_done (w : Peers) (seq : Nat) (res : Int)

/-- One step of a run. -/
def node_step (node : pw_node) : node_op → pw_node
  | .set_state w state => (pw_node_set_state w node state).2
  | .node_done w seq res => on_node_done w node seq res

/-- The node after a sequence of requests and completions. -/
def node_run (node : pw_node) (ops : List node_op) : pw_node :=
  ops.foldl node_step node

/-- The node an asynchronous `pw_node_new` returns over the plain element with
input ids 0, 2, 5: published as Creating, `init_complete` pending. -/
def node_creating : pw_node :=
  pw_node_new_finish (plain_peers 8 [0, 2, 5] 0 0) (node_init "node" none) true

/-- The half of the spec's state invariant that the code keeps: a diagnostic is
present only when the published state is Error. -/
def error_only_in_error (node : pw_node) : Prop :=
  node.info.error ≠ none → node.info.state = .ERROR

/-! ## Further scenario data -/

/-- The node with the single input port 0 and two bound resources, 7 and 9. -/
def node_bound : pw_node :=
  { node_one_port with resource_list := [7, 9] }

/-- Surroundings in which clearing the format answers `fmt p` for port `p`;
everything else as in `plain_peers`. -/
def format_peers (fmt : pw_port → Int) : Peers :=
  { plain_peers 2 [0, 1] 0 0 with port_set_format := fmt }

/-- Surroundings of `w` in which no allocation fails and the element carries
the info items `items`. -/
def info_peers (w : Peers) (items : List (String × String)) : Peers :=
  { w with
    impl_alloc := true
    props_alloc := true
    node := { w.node with info := some items } }

/-- What the code guarantees an observer at the moment of a port signal: at
`port_removed` the port's index entry is empty and the port is still a member
of the sequence; at `port_added` the port is a member of the sequence and is
the index entry at its `port_id`. -/
def signal_view (ev : Event) : Prop :=
  (∀ p ports map, ev = Event.port_removed p ports map →
    p ∈ ports ∧ map.getD p.port_id none = none)
  ∧ (∀ p ports map, ev = Event.port_added p ports map →
    p ∈ ports ∧ map.getD p.port_id none = some p)

/-- The port sets of a node at the moment `update_port_ids` runs. Its only call
is in `init_complete`, which runs once per node, before any port exists: the
port lists are the empty lists `pw_node_new` initialised and the index
pointers are still `NULL`. -/
def ports_at_init (node : pw_node) : Prop :=
  node.input_ports = [] ∧ node.output_ports = []
  ∧ node.input_port_map = [] ∧ node.output_port_map = []

/-! ## Port-set reconciliation: what the code does on the spec's scenarios -/

/-- C1, the code at the claim's own inputs: from the empty port set
with authority ids 0, 2, 5 out of 8, `update_port_ids` leaves the input
sequence 2, 0, 5 (the index holds exactly slots 0, 2, 5); from the sequence
0, 2, 5 with authority 0, 3, 5 it leaves the sequence 0, 0, 3, 2, 5 with only
slots 0 and 3 of the index occupied. -/
theorem update_port_ids_sequence_S1_S2 :
    (update_port_ids (some (plain_element 8 [0, 2, 5] 0 0)) node_empty).input_ports.map
        (fun p => p.port_id) = [2, 0, 5]
    ∧ (update_port_ids (some (plain_element 8 [0, 2, 5] 0 0)) node_empty).input_port_map.map
        (fun s => s.isSome) = [true, false, true, false, false, true, false, false]
    ∧ (update_port_ids (some (plain_element 8 [0, 3, 5] 0 0)) node_S1).input_ports.map
        (fun p => p.port_id) = [0, 0, 3, 2, 5]
    ∧ (update_port_ids (some (plain_element 8 [0, 3, 5] 0 0)) node_S1).input_port_map.map
        (fun s => s.isSome) = [true, false, false, true, false, false, false, false] := by
  decide

/-! ## The port-set invariant under `pw_node_get_free_port` -/

/-- C2 fails as stated: the node with the linked input port 0 out of 2
satisfies the spec's invariant, and after `pw_node_get_free_port` created port
1 the input sequence is 1, 0, which is not ascending; the node with empty
port sets satisfies it, and after `update_port_ids` with authority 0, 2, 5 it
does not. -/
theorem port_inv_not_preserved :
    node_port_inv node_one_of_two
    ∧ ((pw_node_get_free_port (plain_peers 2 [0] 0 0) node_one_of_two .INPUT).2.input_ports.map
        (fun p => p.port_id) = [1, 0])
    ∧ ¬ node_port_inv (pw_node_get_free_port (plain_peers 2 [0] 0 0) node_one_of_two .INPUT).2
    ∧ node_port_inv node_empty
    ∧ ¬ node_port_inv (update_port_ids (some (plain_element 8 [0, 2, 5] 0 0)) node_empty) := by
  decide

theorem get_free_port_scan_wf (w : Peers) (d : pw_direction) (max : Nat) :
    ∀ (slots : List Nat) (s : free_port_scan), (∀ i ∈ slots, i < max) →
      port_set_wf s.ports s.portmap s.n_ports max → s.n_ports < max →
      port_set_wf (get_free_port_scan w d slots s).ports (get_free_port_scan w d slots s).portmap
        (get_free_port_scan w d slots s).n_ports max := by
  intro slots
  induction slots with
  | nil => intro s _ h _; simpa [get_free_port_scan] using h
  | cons i slots ih =>
    intro s hs h hn
    have hs' : ∀ j ∈ slots, j < max := fun j hj => hs j (List.mem_cons_of_mem _ hj)
    have hi : i < max := hs i (List.mem_cons_self _ _)
    rw [get_free_port_scan]
    split
    · rename_i hfree
      split
      · exact h
      · split
        · apply ih _ hs'
          · simpa [pw_port_destroy] using h
          · exact hn
        · obtain ⟨hnd, hidx, hlen, _, hml⟩ := h
          have hfresh : ∀ p ∈ s.ports, p.port_id ≠ i := by
            intro p hp hpi
            have := hidx p hp
            rw [hpi, hfree] at this
            exact Option.noConfusion this
          refine ⟨?_, ?_, ?_, ?_, ?_⟩
          · simp only [List.map_cons, List.nodup_cons, pw_port_new]
            refine ⟨?_, hnd⟩
            intro hmem
            obtain ⟨p, hp, hpi⟩ := List.mem_map.mp hmem
            exact hfresh p hp hpi
          · intro p hp
            rcases List.mem_cons.mp hp with rfl | hp
            · simp [List.getD_eq_getElem?_getD, List.getElem?_set, pw_port_new, hml, hi]
            · have h1 := hidx p hp
              have h2 : i ≠ p.port_id := fun e => hfresh p hp e.symm
              simpa [List.getD_eq_getElem?_getD, List.getElem?_set, h2] using h1
          · simp [hlen]
          · exact hn
          · simp [hml]
    · exact ih s hs' h hn

theorem get_free_port_found (w : Peers) (node : pw_node) (d : pw_direction) (p : pw_port)
    (hf : (dir_ports node d).find? (fun p => p.links.isEmpty) = some p) :
    pw_node_get_free_port w node d = (some p, node) := by
  simp only [pw_node_get_free_port, hf]

theorem get_free_port_full (w : Peers) (node : pw_node) (d : pw_direction)
    (hf : (dir_ports node d).find? (fun p => p.links.isEmpty) = none)
    (hn : ¬ dir_n_ports node d < dir_max_ports node d) :
    pw_node_get_free_port w node d
      = (match dir_ports node d with
         | [] => none
         | first :: _ => if d = .INPUT ∧ first.multiplex = none then none else some first,
         node) := by
  simp only [pw_node_get_free_port, hf, hn, if_false]
  cases dir_ports node d with
  | nil => rfl
  | cons first rest =>
    by_cases hm : d = .INPUT ∧ first.multiplex = none
    · simp only [hm, and_self, if_true]
    · simp only [hm, if_false]

theorem get_free_port_create_input (w : Peers) (node : pw_node)
    (hf : (dir_ports node .INPUT).find? (fun p => p.links.isEmpty) = none)
    (hn : dir_n_ports node .INPUT < dir_max_ports node .INPUT) :
    pw_node_get_free_port w node .INPUT
      = ((get_free_port_scan w .INPUT (List.range node.info.max_input_ports)
            { port := none, ports := node.input_ports, portmap := node.input_port_map,
              n_ports := node.info.n_input_ports, next_uid := node.next_uid,
              trace := node.trace }).port,
         { node with
           info := { node.info with
             n_input_ports := (get_free_port_scan w .INPUT (List.range node.info.max_input_ports)
               { port := none, ports := node.input_ports, portmap := node.input_port_map,
                 n_ports := node.info.n_input_ports, next_uid := node.next_uid,
                 trace := node.trace }).n_ports }
           input_ports := (get_free_port_scan w .INPUT (List.range node.info.max_input_ports)
             { port := none, ports := node.input_ports, portmap := node.input_port_map,
               n_ports := node.info.n_input_ports, next_uid := node.next_uid,
               trace := node.trace }).ports
           input_port_map := (get_free_port_scan w .INPUT (List.range node.info.max_input_ports)
             { port := none, ports := node.input_ports, portmap := node.input_port_map,
               n_ports := node.info.n_input_ports, next_uid := node.next_uid,
               trace := node.trace }).portmap
           next_uid := (get_free_port_scan w .INPUT (List.range node.info.max_input_ports)
             { port := none, ports := node.input_ports, portmap := node.input_port_map,
               n_ports := node.info.n_input_ports, next_uid := node.next_uid,
               trace := node.trace }).next_uid
           trace := (get_free_port_scan w .INPUT (List.range node.info.max_input_ports)
             { port := none, ports := node.input_ports, portmap := node.input_port_map,
               n_ports := node.info.n_input_ports, next_uid := node.next_uid,
               trace := node.trace }).trace }) := by
  simp only [pw_node_get_free_port, hf, hn, if_true]
  simp only [dir_ports, dir_portmap, dir_n_ports, dir_max_ports, if_true]

theorem get_free_port_create_output (w : Peers) (node : pw_node)
    (hf : (dir_ports node .OUTPUT).find? (fun p => p.links.isEmpty) = none)
    (hn : dir_n_ports node .OUTPUT < dir_max_ports node .OUTPUT) :
    pw_node_get_free_port w node .OUTPUT
      = ((get_free_port_scan w .OUTPUT (List.range node.info.max_output_ports)
            { port := none, ports := node.output_ports, portmap := node.output_port_map,
              n_ports := node.info.n_output_ports, next_uid := node.next_uid,
              trace := node.trace }).port,
         { node with
           info := { node.info with
             n_output_ports := (get_free_port_scan w .OUTPUT (List.range node.info.max_output_ports)
               { port := none, ports := node.output_ports, portmap := node.output_port_map,
                 n_ports := node.info.n_output_ports, next_uid := node.next_uid,
                 trace := node.trace }).n_ports }
           output_ports := (get_free_port_scan w .OUTPUT (List.range node.info.max_output_ports)
             { port := none, ports := node.output_ports, portmap := node.output_port_map,
               n_ports := node.info.n_output_ports, next_uid := node.next_uid,
               trace := node.trace }).ports
           output_port_map := (get_free_port_scan w .OUTPUT (List.range node.info.max_output_ports)
             { port := none, ports := node.output_ports, portmap := node.output_port_map,
               n_ports := node.info.n_output_ports, next_uid := node.next_uid,
               trace := node.trace }).portmap
           next_uid := (get_free_port_scan w .OUTPUT (List.range node.info.max_output_ports)
             { port := none, ports := node.output_ports, portmap := node.output_port_map,
               n_ports := node.info.n_output_ports, next_uid := node.next_uid,
               trace := node.trace }).next_uid
           trace := (get_free_port_scan w .OUTPUT (List.range node.info.max_output_ports)
             { port := none, ports := node.output_ports, portmap := node.output_port_map,
               n_ports := node.info.n_output_ports, next_uid := node.next_uid,
               trace := node.trace }).trace }) := by
  simp only [pw_node_get_free_port, hf, hn, if_true]
  simp [dir_ports, dir_portmap, dir_n_ports, dir_max_ports]

/-- C2 as amended: `pw_node_get_free_port` preserves, for both directions, that
the port ids of the sequence are pairwise distinct, that every port of the
sequence is the index entry at its `port_id`, that the sequence length is
`n_ports`, at most `max_ports`, and that the index has `max_ports` slots, for
every behaviour of the element and of the allocator. -/
theorem get_free_port_preserves_wf (w : Peers) (node : pw_node) (d : pw_direction)
    (h : node_port_wf node) : node_port_wf (pw_node_get_free_port w node d).2 := by
  cases hf : (dir_ports node d).find? (fun p => p.links.isEmpty) with
  | some p => rw [get_free_port_found w node d p hf]; exact h
  | none =>
    by_cases hn : dir_n_ports node d < dir_max_ports node d
    · cases d with
      | INPUT =>
        rw [get_free_port_create_input w node hf hn]
        have := get_free_port_scan_wf w .INPUT node.info.max_input_ports
          (List.range node.info.max_input_ports)
          { port := none, ports := node.input_ports, portmap := node.input_port_map,
            n_ports := node.info.n_input_ports, next_uid := node.next_uid, trace := node.trace }
          (fun i hi => List.mem_range.mp hi) h.1
          (by simpa [dir_n_ports, dir_max_ports] using hn)
        exact ⟨this, h.2⟩
      | OUTPUT =>
        rw [get_free_port_create_output w node hf hn]
        have := get_free_port_scan_wf w .OUTPUT node.info.max_output_ports
          (List.range node.info.max_output_ports)
          { port := none, ports := node.output_ports, portmap := node.output_port_map,
            n_ports := node.info.n_output_ports, next_uid := node.next_uid, trace := node.trace }
          (fun i hi => List.mem_range.mp hi) h.2
          (by simpa [dir_n_ports, dir_max_ports] using hn)
        exact ⟨h.1, this⟩
    · rw [get_free_port_full w node d hf hn]; exact h

/-- C2 as amended, at the node with the linked input port 0 out of 2 and an
element that accepts `add_port`. -/
theorem get_free_port_preserves_wf_witness :
    node_port_wf node_one_of_two
    ∧ node_port_wf (pw_node_get_free_port (plain_peers 2 [0] 0 0) node_one_of_two .INPUT).2 :=
  ⟨by decide, get_free_port_preserves_wf _ _ _ (by decide)⟩

/-! ## Construction and the `port_added` signal -/

theorem update_ports_drain_no_added (a : Bool) :
    ∀ (post : List pw_port) (w : port_walk),
      (∀ ev ∈ w.trace, is_port_added ev = false) →
      ∀ ev ∈ (update_ports_drain a post w).trace, is_port_added ev = false := by
  intro post
  induction post with
  | nil => intro w h; simpa [update_ports_drain] using h
  | cons p rest ih =>
    intro w h
    rw [update_ports_drain]
    apply ih
    intro ev hev
    cases a <;> simp at hev
    · rcases hev with hev | hev | hev
      · exact h ev hev
      · subst hev; rfl
      · subst hev; rfl
    · rcases hev with hev | hev
      · exact h ev hev
      · subst hev; rfl

theorem update_ports_walk_no_added (d : pw_direction) :
    ∀ (ids : List Nat) (post : List pw_port) (w : port_walk),
      (∀ ev ∈ w.trace, is_port_added ev = false) →
      ∀ ev ∈ (update_ports_walk d true ids post w).trace, is_port_added ev = false := by
  intro ids
  induction ids with
  | nil => intro post w h; rw [update_ports_walk]; exact update_ports_drain_no_added true post w h
  | cons id ids ih =>
    intro post w h
    cases post with
    | nil =>
      rw [update_ports_walk]
      apply ih
      intro ev hev
      simp at hev
      rcases hev with hev | hev | hev
      · exact h ev hev
      · subst hev; rfl
      · subst hev; rfl
    | cons p rest =>
      rw [update_ports_walk]
      split
      · exact ih _ _ h
      · apply ih
        intro ev hev
        simp at hev
        rcases hev with hev | hev | hev
        · exact h ev hev
        · subst hev; rfl
        · subst hev; rfl

theorem update_port_ids_no_added (e : Option spa_node) (node : pw_node)
    (ha : node.async_init = true) (h : ∀ ev ∈ node.trace, is_port_added ev = false) :
    ∀ ev ∈ (update_port_ids e node).trace, is_port_added ev = false := by
  cases e with
  | none => simpa [update_port_ids] using h
  | some e =>
    simp only [update_port_ids, ha]
    apply update_ports_walk_no_added
    apply update_ports_walk_no_added
    exact h

theorem update_state_same (node : pw_node) (state : pw_node_state) (error : Option String)
    (h : node.info.state = state) : pw_node_update_state node state error = node := by
  simp [pw_node_update_state, h]

theorem update_state_diff (node : pw_node) (state : pw_node_state) (error : Option String)
    (h : node.info.state ≠ state) :
    pw_node_update_state node state error
      = { node with
          info := { node.info with error := error, state := state, change_mask := 1 <<< 5 }
          trace := node.trace ++ [Event.state_changed node.info.state state]
            ++ node.resource_list.map (fun r => Event.notify_info r
                { node.info with error := error, state := state, change_mask := 1 <<< 5 }) } := by
  simp [pw_node_update_state, h]

theorem update_state_trace_no_added (node : pw_node) (state : pw_node_state)
    (error : Option String) (h : ∀ ev ∈ node.trace, is_port_added ev = false) :
    ∀ ev ∈ (pw_node_update_state node state error).trace, is_port_added ev = false := by
  by_cases hc : node.info.state = state
  · rw [update_state_same node state error hc]; exact h
  · rw [update_state_diff node state error hc]
    intro ev hev
    simp only [List.mem_append, List.mem_singleton, List.mem_map] at hev
    rcases hev with (hev | hev) | ⟨r, _, hev⟩
    · exact h ev hev
    · subst hev; rfl
    · subst hev; rfl

theorem init_complete_no_added (w : Peers) (node : pw_node)
    (ha : node.async_init = true) (h : ∀ ev ∈ node.trace, is_port_added ev = false) :
    ∀ ev ∈ (init_complete w node).trace, is_port_added ev = false := by
  unfold init_complete
  apply update_state_trace_no_added
  intro ev hev
  simp only [update_info, List.mem_append, List.mem_singleton] at hev
  rcases hev with (hev | hev) | hev
  · refine update_port_ids_no_added (some w.node)
      { node with trace := node.trace ++ [Event.graph_node_add] } ha ?_ ev hev
    intro ev hev
    simp only [List.mem_append, List.mem_singleton] at hev
    rcases hev with hev | hev
    · exact h ev hev
    · subst hev; rfl
  · subst hev; rfl
  · subst hev; rfl

theorem pw_node_new_node (w : Peers) (name : String) (async : Bool)
    (props : Option (List (String × String))) (n : pw_node)
    (h : pw_node_new w name async props = .node n) :
    ∃ pr, n = pw_node_new_finish w (node_init name pr) async := by
  unfold pw_node_new at h
  split at h
  · exact new_result.noConfusion h
  · split at h
    · exact ⟨props, (new_result.node.inj h).symm⟩
    · simp only at h
      split at h
      · exact new_result.noConfusion h
      · split at h
        · exact ⟨none, (new_result.node.inj h).symm⟩
        · exact new_result.noConfusion h

theorem pw_node_new_async_shape (w : Peers) (name : String)
    (props : Option (List (String × String))) (n : pw_node)
    (h : pw_node_new w name true props = .node n) :
    n.async_init = true ∧ n.trace = [] ∧ n.info.state = .CREATING ∧ n.info.error = none
      ∧ n.work = [{ seq := 0, func := .init_complete }] := by
  have hq : SPA_RESULT_IS_ASYNC (SPA_RESULT_RETURN_ASYNC 0) = true := by decide
  have hs : SPA_RESULT_ASYNC_SEQ (SPA_RESULT_RETURN_ASYNC 0) = 0 := by decide
  obtain ⟨pr, rfl⟩ := pw_node_new_node w name true props n h
  simp [pw_node_new_finish, pw_work_queue_add, hq, hs, node_init]

/-- C4 fails as stated: synchronous construction over an element that reports
the input ids 0, 2, 5 returns a node whose trace holds three `port_added`
emissions. -/
theorem sync_construction_emits_port_added :
    (pw_node_new (plain_peers 8 [0, 2, 5] 0 0) "node" false none).node?.map
      (fun n => (n.trace.filter is_port_added).length) = some 3 := by
  decide

/-- C4 as amended: after asynchronous construction the node has emitted
nothing and holds the deferred `init_complete`; when the element reports done
for sequence 0, `init_complete` runs (the node is published as Suspended) and
the trace holds no `port_added` emission, whatever the authority lists are. -/
theorem async_construction_no_port_added (w w' : Peers) (name : String)
    (props : Option (List (String × String))) (n : pw_node) (res : Int)
    (h : pw_node_new w name true props = .node n) :
    n.trace = []
    ∧ (on_node_done w' n 0 res).info.state = .SUSPENDED
    ∧ (∀ ev ∈ (init_complete w' n).trace, is_port_added ev = false)
    ∧ (∀ ev ∈ (on_node_done w' n 0 res).trace, is_port_added ev = false) := by
  obtain ⟨ha, htr, hst, _, hwk⟩ := pw_node_new_async_shape w name props n h
  have hno : ∀ (m : pw_node), m.trace = [] → ∀ ev ∈ m.trace, is_port_added ev = false := by
    intro m hm ev hev
    rw [hm] at hev
    exact absurd hev (List.not_mem_nil ev)
  have hdone : pw_work_queue_complete w' n 0 res = init_complete w' { n with work := [] } := by
    simp [pw_work_queue_complete, hwk, work_invoke]
  refine ⟨htr, ?_, init_complete_no_added w' n ha (hno n htr), ?_⟩
  · simp only [on_node_done, hdone, init_complete, pw_node_update_state, update_info]
    have : (update_port_ids (some w'.node)
        { n with work := [], trace := n.trace ++ [Event.graph_node_add] }).info.state
          = .CREATING := by
      simp [update_port_ids, hst]
    simp [this]
  · intro ev hev
    simp only [on_node_done, hdone, List.mem_append, List.mem_singleton] at hev
    rcases hev with hev | hev
    · exact init_complete_no_added w' { n with work := [] } ha (hno _ htr) ev hev
    · subst hev; rfl

/-- C4 as amended, at an element that reports the input ids 0, 2, 5. -/
theorem async_construction_no_port_added_witness :
    ∃ n, pw_node_new (plain_peers 8 [0, 2, 5] 0 0) "node" true none = .node n
      ∧ (on_node_done (plain_peers 8 [0, 2, 5] 0 0) n 0 0).info.state = .SUSPENDED
      ∧ (on_node_done (plain_peers 8 [0, 2, 5] 0 0) n 0 0).input_ports.length = 3
      ∧ ∀ ev ∈ (on_node_done (plain_peers 8 [0, 2, 5] 0 0) n 0 0).trace,
          is_port_added ev = false :=
  ⟨_, rfl,
    (async_construction_no_port_added (plain_peers 8 [0, 2, 5] 0 0) (plain_peers 8 [0, 2, 5] 0 0)
      "node" none _ 0 rfl).2.1,
    by decide,
    (async_construction_no_port_added (plain_peers 8 [0, 2, 5] 0 0) (plain_peers 8 [0, 2, 5] 0 0)
      "node" none _ 0 rfl).2.2.2⟩

/-! ## Free-port selection -/

/-- C5: when some port of the direction has an empty link list,
`pw_node_get_free_port` returns the first port of the sequence whose link list
is empty, and the node afterwards is the node before in every field (port
lists, indexes, counts, allocation counter and trace: no port was created
and the element was not called). -/
theorem get_free_port_first_unlinked (w : Peers) (node : pw_node) (d : pw_direction)
    (h : ∃ p ∈ dir_ports node d, p.links = []) :
    ∃ pre p post, dir_ports node d = pre ++ p :: post
      ∧ (∀ q ∈ pre, q.links ≠ [])
      ∧ p.links = []
      ∧ pw_node_get_free_port w node d = (some p, node) := by
  cases hf : (dir_ports node d).find? (fun p => p.links.isEmpty) with
  | none =>
    obtain ⟨p, hp, hl⟩ := h
    have := List.find?_eq_none.mp hf p hp
    simp [hl] at this
  | some p =>
    obtain ⟨hp, pre, post, hsplit, hpre⟩ := List.find?_eq_some.mp hf
    refine ⟨pre, p, post, hsplit, ?_, ?_, get_free_port_found w node d p hf⟩
    · intro q hq hql
      have := hpre q hq
      simp [hql] at this
    · simpa using hp

/-- C5 at a node whose input ports 0 and 1 are linked and whose input port 2 is
not: the call returns port 2 and changes nothing. -/
theorem get_free_port_first_unlinked_witness :
    ∃ pre p post,
      dir_ports (input_node [linked_input 0 0, linked_input 1 1, pw_port_new .INPUT 2 2]
          [some (linked_input 0 0), some (linked_input 1 1), some (pw_port_new .INPUT 2 2)]
          3 4 3) .INPUT = pre ++ p :: post
      ∧ (∀ q ∈ pre, q.links ≠ [])
      ∧ p.links = []
      ∧ pw_node_get_free_port (plain_peers 4 [0, 1, 2] 0 0)
          (input_node [linked_input 0 0, linked_input 1 1, pw_port_new .INPUT 2 2]
            [some (linked_input 0 0), some (linked_input 1 1), some (pw_port_new .INPUT 2 2)]
            3 4 3) .INPUT
        = (some p, input_node [linked_input 0 0, linked_input 1 1, pw_port_new .INPUT 2 2]
            [some (linked_input 0 0), some (linked_input 1 1), some (pw_port_new .INPUT 2 2)]
            3 4 3) :=
  get_free_port_first_unlinked _ _ _ ⟨pw_port_new .INPUT 2 2, by decide, rfl⟩

/-- C6: when every port of the direction has a link and `n_ports` equals
`max_ports`, `pw_node_get_free_port` returns the first port of the sequence on
the output side, and on the input side the first port of the sequence if it
carries the multiplex marker and no port otherwise; the node afterwards is the
node before in every field. -/
theorem get_free_port_saturated (w : Peers) (node : pw_node) (d : pw_direction)
    (hl : ∀ p ∈ dir_ports node d, p.links ≠ [])
    (hn : dir_n_ports node d = dir_max_ports node d) :
    pw_node_get_free_port w node d
      = (if d = .OUTPUT then (dir_ports node d).head?
         else (dir_ports node d).head?.filter (fun p => p.multiplex.isSome),
         node) := by
  have hf : (dir_ports node d).find? (fun p => p.links.isEmpty) = none := by
    apply List.find?_eq_none.mpr
    intro p hp
    simpa using hl p hp
  rw [get_free_port_full w node d hf (by omega)]
  cases d with
  | OUTPUT => cases hp : dir_ports node .OUTPUT <;> simp
  | INPUT =>
    cases hp : dir_ports node .INPUT with
    | nil => simp
    | cons first rest =>
      cases hm : first.multiplex <;> simp [Option.filter, hm]

/-- C6 at scenario S5: `max_in = 2`, two linked input ports, no multiplex
marker; the call returns no port and leaves the node as it was. -/
theorem get_free_port_saturated_witness :
    pw_node_get_free_port (plain_peers 2 [0, 1] 0 0) node_S5 .INPUT = (none, node_S5) :=
  get_free_port_saturated (plain_peers 2 [0, 1] 0 0) node_S5 .INPUT (by decide) (by decide)

/-- C7, the code at a failing input: the input port 0 is linked, one slot out of
two is free and the element refuses every `add_port`. The call leaves the
sequence, the index and `n_ports` as they were, destroys the port it built
for slot 1, and returns that destroyed port rather than `NULL`. -/
theorem get_free_port_rejected_returns_destroyed :
    (pw_node_get_free_port (plain_peers 2 [0] (-1) 0) node_one_of_two .INPUT).1
      = some (pw_port_new .INPUT 1 1)
    ∧ (pw_node_get_free_port (plain_peers 2 [0] (-1) 0) node_one_of_two .INPUT).2.trace
      = [Event.port_new (pw_port_new .INPUT 1 1), Event.element_add_port .INPUT 1,
         Event.port_destroy (pw_port_new .INPUT 1 1)]
    ∧ (pw_node_get_free_port (plain_peers 2 [0] (-1) 0) node_one_of_two .INPUT).2.input_ports
      = node_one_of_two.input_ports
    ∧ (pw_node_get_free_port (plain_peers 2 [0] (-1) 0) node_one_of_two .INPUT).2.input_port_map
      = node_one_of_two.input_port_map
    ∧ (pw_node_get_free_port (plain_peers 2 [0] (-1) 0) node_one_of_two .INPUT).2.info
      = node_one_of_two.info := by
  decide

/-! ## Completion of a state request -/

theorem on_state_complete_ok_state (node : pw_node) (target : pw_node_state) (res : Int)
    (h : 0 ≤ res) : (on_state_complete node target res).info.state = target := by
  have hr : SPA_RESULT_IS_ERROR res = false := by simp [SPA_RESULT_IS_ERROR, h]
  simp only [on_state_complete, hr]
  by_cases hc : node.info.state = target
  · simpa [update_state_same node target none hc] using hc
  · simp [update_state_diff node target none hc]

/-- C8 fails as stated: a node whose request failed with -3 is published as
Error with the diagnostic for -3; when a later completion fails with -5 the
published state is Error but `info.error` is still the diagnostic for -3. -/
theorem on_state_complete_keeps_old_error :
    (on_state_complete node_one_port .RUNNING (-3)).info.state = .ERROR
    ∧ (on_state_complete (on_state_complete node_one_port .RUNNING (-3)) .RUNNING (-5)).info.state
      = .ERROR
    ∧ (on_state_complete (on_state_complete node_one_port .RUNNING (-3)) .RUNNING (-5)).info.error
      = some "error changing node state: -3"
    ∧ (on_state_complete (on_state_complete node_one_port .RUNNING (-3)) .RUNNING (-5)).info.error
      ≠ some "error changing node state: -5" := by
  decide

/-- C8 as amended: with a successful result `on_state_complete` publishes the
target; with a negative result it publishes Error, and `info.error` becomes
"error changing node state: " followed by the decimal rendering of the result
when the published state was not Error before; when it was Error already the
node, its error string included, is left as it was. -/
theorem on_state_complete_publishes (node : pw_node) (target : pw_node_state) (res : Int) :
    (0 ≤ res → (on_state_complete node target res).info.state = target)
    ∧ (res < 0 → (on_state_complete node target res).info.state = .ERROR)
    ∧ (res < 0 → node.info.state ≠ .ERROR →
        (on_state_complete node target res).info.error
          = some ("error changing node state: " ++ toString res))
    ∧ (res < 0 → node.info.state = .ERROR → on_state_complete node target res = node) := by
  refine ⟨?_, ?_, ?_, ?_⟩
  · exact on_state_complete_ok_state node target res
  · intro h
    have hr : SPA_RESULT_IS_ERROR res = true := by simp [SPA_RESULT_IS_ERROR, h]
    simp only [on_state_complete, hr]
    by_cases hc : node.info.state = .ERROR
    · simpa [update_state_same node .ERROR _ hc] using hc
    · simp [update_state_diff node .ERROR _ hc]
  · intro h hc
    have hr : SPA_RESULT_IS_ERROR res = true := by simp [SPA_RESULT_IS_ERROR, h]
    simp [on_state_complete, hr, update_state_diff node .ERROR _ hc, state_error_string]
  · intro h hc
    have hr : SPA_RESULT_IS_ERROR res = true := by simp [SPA_RESULT_IS_ERROR, h]
    simp [on_state_complete, hr, update_state_same node .ERROR _ hc]

/-- C8 as amended, at scenario S4: from Suspended the result -5 publishes Error
with the diagnostic "error changing node state: -5". -/
theorem on_state_complete_publishes_witness :
    (on_state_complete node_one_port .RUNNING (-5)).info.state = .ERROR
    ∧ (on_state_complete node_one_port .RUNNING (-5)).info.error
      = some "error changing node state: -5" :=
  ⟨(on_state_complete_publishes node_one_port .RUNNING (-5)).2.1 (by decide),
   (on_state_complete_publishes node_one_port .RUNNING (-5)).2.2.1 (by decide) (by decide)⟩

/-! ## State requests while the node is Creating -/

theorem suspend_node_fields (w : Peers) (node : pw_node) :
    (suspend_node w node).2.info = node.info ∧ (suspend_node w node).2.work = node.work := by
  simp [suspend_node]

theorem pause_node_fields (w : Peers) (node : pw_node) :
    (pause_node w node).2.info = node.info ∧ (pause_node w node).2.work = node.work := by
  unfold pause_node
  split <;> simp

theorem start_node_fields (w : Peers) (node : pw_node) :
    (start_node w (send_clock_update (node_activate node))).2.info = node.info
    ∧ (start_node w (send_clock_update (node_activate node))).2.work = node.work := by
  simp [start_node, send_clock_update, node_activate]

/-- The command phase of `pw_node_set_state` for a target other than Creating:
the result of the command and the node after it. -/
theorem set_state_eq (w : Peers) (node : pw_node) (target : pw_node_state)
    (ht : target ≠ .CREATING) :
    ∃ (res : Int) (m : pw_node), m.info = node.info ∧ m.work = node.work
      ∧ (target = .IDLE → node.info.state.toInt ≤ pw_node_state.IDLE.toInt → res = SPA_RESULT_OK)
      ∧ pw_node_set_state w node target
        = if SPA_RESULT_IS_ERROR res then (res, m)
          else (res, pw_work_queue_add w m res (.on_state_complete target)) := by
  cases target with
  | CREATING => exact absurd rfl ht
  | SUSPENDED =>
    refine ⟨(suspend_node w
        { node with trace := node.trace ++ [Event.state_request .SUSPENDED] }).1,
      (suspend_node w { node with trace := node.trace ++ [Event.state_request .SUSPENDED] }).2,
      (suspend_node_fields w _).1, (suspend_node_fields w _).2,
      fun h => pw_node_state.noConfusion h, ?_⟩
    simp only [pw_node_set_state]
  | IDLE =>
    refine ⟨(pause_node w { node with trace := node.trace ++ [Event.state_request .IDLE] }).1,
      (pause_node w { node with trace := node.trace ++ [Event.state_request .IDLE] }).2,
      (pause_node_fields w _).1, (pause_node_fields w _).2, ?_, ?_⟩
    · intro _ h
      simp [pause_node, h]
    · simp only [pw_node_set_state]
  | RUNNING =>
    refine ⟨(start_node w (send_clock_update (node_activate
        { node with trace := node.trace ++ [Event.state_request .RUNNING] }))).1,
      (start_node w (send_clock_update (node_activate
        { node with trace := node.trace ++ [Event.state_request .RUNNING] }))).2,
      (start_node_fields w _).1, (start_node_fields w _).2,
      fun h => pw_node_state.noConfusion h, ?_⟩
    simp only [pw_node_set_state]
  | ERROR =>
    refine ⟨SPA_RESULT_OK, { node with trace := node.trace ++ [Event.state_request .ERROR] },
      rfl, rfl, fun h => pw_node_state.noConfusion h, ?_⟩
    simp only [pw_node_set_state]

/-- C9 fails as stated: the node returned by an asynchronous `pw_node_new` is
published as Creating; a request for Idle returns 0 (it is not rejected) and
the node is published as Idle while `init_complete` is still pending; a
request for Running whose start command answers with the async marker for
sequence 1 is not rejected either, latches Running in a pending completion,
and that completion, run with success, publishes Running. -/
theorem set_state_leaves_creating :
    node_creating.info.state = .CREATING
    ∧ (pw_node_set_state (plain_peers 8 [0, 2, 5] 0 0) node_creating .IDLE).1 = 0
    ∧ (pw_node_set_state (plain_peers 8 [0, 2, 5] 0 0) node_creating .IDLE).2.info.state = .IDLE
    ∧ (pw_node_set_state (plain_peers 8 [0, 2, 5] 0 0) node_creating .IDLE).2.work
      = [{ seq := 0, func := .init_complete }]
    ∧ SPA_RESULT_IS_ERROR
        (pw_node_set_state (plain_peers 8 [0, 2, 5] 0 (SPA_RESULT_RETURN_ASYNC 1))
          node_creating .RUNNING).1 = false
    ∧ (pw_node_set_state (plain_peers 8 [0, 2, 5] 0 (SPA_RESULT_RETURN_ASYNC 1))
          node_creating .RUNNING).2.work
      = [{ seq := 0, func := .init_complete }, { seq := 1, func := .on_state_complete .RUNNING }]
    ∧ (on_node_done (plain_peers 8 [0, 2, 5] 0 0)
        (pw_node_set_state (plain_peers 8 [0, 2, 5] 0 (SPA_RESULT_RETURN_ASYNC 1))
          node_creating .RUNNING).2 1 0).info.state = .RUNNING := by
  decide

/-- C9 as amended: for a node published as Creating, a request for Creating is
rejected with an error; every rejected request (negative result) enqueues
nothing and leaves the info block, so the published state, as it was; a
request for Idle is never rejected, it returns 0 and the node is published as
Idle; a request answered with an async marker latches the target in a pending
completion and leaves the info block as it was; a request answered with a
plain non-negative result publishes the target at once. -/
theorem set_state_in_creating (w : Peers) (node : pw_node) (target : pw_node_state)
    (h : node.info.state = .CREATING) :
    (target = .CREATING → (pw_node_set_state w node target).1 = SPA_RESULT_ERROR)
    ∧ (SPA_RESULT_IS_ERROR (pw_node_set_state w node target).1 = true →
        (pw_node_set_state w node target).2.info = node.info
        ∧ (pw_node_set_state w node target).2.work = node.work)
    ∧ (target = .IDLE →
        (pw_node_set_state w node target).1 = SPA_RESULT_OK
        ∧ (pw_node_set_state w node target).2.info.state = .IDLE)
    ∧ (SPA_RESULT_IS_ERROR (pw_node_set_state w node target).1 = false →
        SPA_RESULT_IS_ASYNC (pw_node_set_state w node target).1 = true →
        (pw_node_set_state w node target).2.info = node.info
        ∧ (pw_node_set_state w node target).2.work
          = node.work ++ [{ seq := SPA_RESULT_ASYNC_SEQ (pw_node_set_state w node target).1,
                            func := .on_state_complete target }])
    ∧ (SPA_RESULT_IS_ERROR (pw_node_set_state w node target).1 = false →
        SPA_RESULT_IS_ASYNC (pw_node_set_state w node target).1 = false →
        (pw_node_set_state w node target).2.info.state = target) := by
  by_cases ht : target = .CREATING
  · subst ht
    have he : SPA_RESULT_IS_ERROR SPA_RESULT_ERROR = true := by decide
    simp [pw_node_set_state, he]
  · obtain ⟨res, m, hmi, hmw, hidle, heq⟩ := set_state_eq w node target ht
    have hidle0 : target = .IDLE → res = SPA_RESULT_OK :=
      fun h1 => hidle h1 (by rw [h]; decide)
    cases he : SPA_RESULT_IS_ERROR res
    · have hres : 0 ≤ res := by simpa [SPA_RESULT_IS_ERROR] using he
      have hpub : (on_state_complete m target res).info.state = target :=
        on_state_complete_ok_state m target res hres
      cases ha : SPA_RESULT_IS_ASYNC res
      · have hval : pw_node_set_state w node target = (res, on_state_complete m target res) := by
          rw [heq]; simp [he, pw_work_queue_add, ha, work_invoke]
        rw [hval]
        refine ⟨fun h1 => absurd h1 ht, ?_, ?_, ?_, ?_⟩
        · intro h1; rw [he] at h1; exact Bool.noConfusion h1
        · intro h1; exact ⟨hidle0 h1, h1 ▸ hpub⟩
        · intro _ h2; rw [ha] at h2; exact Bool.noConfusion h2
        · intro _ _; exact hpub
      · have hval : pw_node_set_state w node target
            = (res, { m with work := m.work ++ [{ seq := SPA_RESULT_ASYNC_SEQ res,
                                                  func := .on_state_complete target }] }) := by
          rw [heq]; simp [he, pw_work_queue_add, ha]
        rw [hval]
        refine ⟨fun h1 => absurd h1 ht, ?_, ?_, ?_, ?_⟩
        · intro h1; rw [he] at h1; exact Bool.noConfusion h1
        · intro h1
          have h0 := hidle0 h1
          rw [h0] at ha
          exact absurd ha (by decide)
        · intro _ _; exact ⟨hmi, by rw [← hmw]⟩
        · intro _ h2; rw [ha] at h2; exact Bool.noConfusion h2
    · have hval : pw_node_set_state w node target = (res, m) := by
        rw [heq]; simp [he]
      rw [hval]
      refine ⟨fun h1 => absurd h1 ht, ?_, ?_, ?_, ?_⟩
      · intro _; exact ⟨hmi, hmw⟩
      · intro h1
        have h0 := hidle0 h1
        rw [h0] at he
        exact absurd he (by decide)
      · intro h1; rw [he] at h1; exact Bool.noConfusion h1
      · intro h1; rw [he] at h1; exact Bool.noConfusion h1

/-- C9 as amended, at the node returned by an asynchronous `pw_node_new` and a
request for Idle. -/
theorem set_state_in_creating_witness :
    node_creating.info.state = .CREATING
    ∧ (pw_node_set_state (plain_peers 8 [0, 2, 5] 0 0) node_creating .IDLE).1 = SPA_RESULT_OK
    ∧ (pw_node_set_state (plain_peers 8 [0, 2, 5] 0 0) node_creating .IDLE).2.info.state
      = .IDLE :=
  ⟨by decide,
   ((set_state_in_creating (plain_peers 8 [0, 2, 5] 0 0) node_creating .IDLE
      (by decide)).2.2.1 rfl).1,
   ((set_state_in_creating (plain_peers 8 [0, 2, 5] 0 0) node_creating .IDLE
      (by decide)).2.2.1 rfl).2⟩

/-! ## The published state and the error string along every run -/

theorem update_state_keeps (node : pw_node) (state : pw_node_state) (error : Option String)
    (h : error_only_in_error node) (he : error ≠ none → state = .ERROR) :
    error_only_in_error (pw_node_update_state node state error) := by
  by_cases hc : node.info.state = state
  · rw [update_state_same node state error hc]; exact h
  · rw [update_state_diff node state error hc]; exact he

theorem on_state_complete_keeps (node : pw_node) (state : pw_node_state) (res : Int)
    (h : error_only_in_error node) : error_only_in_error (on_state_complete node state res) := by
  unfold on_state_complete
  split
  · exact update_state_keeps node _ _ h (fun _ => rfl)
  · exact update_state_keeps node _ _ h (fun hn => absurd rfl hn)

theorem update_port_ids_state (e : Option spa_node) (node : pw_node) :
    (update_port_ids e node).info.state = node.info.state
    ∧ (update_port_ids e node).info.error = node.info.error := by
  cases e <;> simp [update_port_ids]

theorem init_complete_keeps (w : Peers) (node : pw_node) (h : error_only_in_error node) :
    error_only_in_error (init_complete w node) := by
  unfold init_complete
  apply update_state_keeps _ _ _ _ (fun hn => absurd rfl hn)
  intro hne
  simp only [update_info, (update_port_ids_state _ _).1, (update_port_ids_state _ _).2] at hne ⊢
  exact h hne

theorem work_invoke_keeps (w : Peers) (func : pw_work_func) (res : Int) (node : pw_node)
    (h : error_only_in_error node) : error_only_in_error (work_invoke w func res node) := by
  cases func with
  | init_complete => exact init_complete_keeps w node h
  | on_state_complete state => exact on_state_complete_keeps node state res h

theorem work_queue_add_keeps (w : Peers) (node : pw_node) (res : Int) (func : pw_work_func)
    (h : error_only_in_error node) : error_only_in_error (pw_work_queue_add w node res func) := by
  unfold pw_work_queue_add
  split
  · exact h
  · exact work_invoke_keeps w func res node h

theorem on_node_done_keeps (w : Peers) (node : pw_node) (seq : Nat) (res : Int)
    (h : error_only_in_error node) : error_only_in_error (on_node_done w node seq res) := by
  have hq : error_only_in_error (pw_work_queue_complete w node seq res) := by
    unfold pw_work_queue_complete
    split
    · exact h
    · exact work_invoke_keeps w _ res _ h
  exact hq

theorem set_state_keeps (w : Peers) (node : pw_node) (state : pw_node_state)
    (h : error_only_in_error node) : error_only_in_error (pw_node_set_state w node state).2 := by
  by_cases ht : state = .CREATING
  · subst ht
    exact h
  · obtain ⟨res, m, hmi, _, _, heq⟩ := set_state_eq w node state ht
    have hm : error_only_in_error m := by
      unfold error_only_in_error
      rw [hmi]
      exact h
    rw [heq]
    split
    · exact hm
    · exact work_queue_add_keeps w m res _ hm

theorem node_run_keeps (ops : List node_op) :
    ∀ (node : pw_node), error_only_in_error node → error_only_in_error (node_run node ops) := by
  induction ops with
  | nil => intro node h; exact h
  | cons op ops ih =>
    intro node h
    have hstep : error_only_in_error (node_step node op) := by
      cases op with
      | set_state w state => exact set_state_keeps w node state h
      | node_done w seq res => exact on_node_done_keeps w node seq res h
    exact ih _ hstep

/-- C10 fails as stated: after synchronous construction a request for Error is
accepted and completes with success, which publishes Error with no error
string. -/
theorem error_state_without_error_string :
    (pw_node_new (plain_peers 8 [0, 2, 5] 0 0) "node" false none).node?.map
      (fun n =>
        ((node_run n [node_op.set_state (plain_peers 8 [0, 2, 5] 0 0) .ERROR]).info.state,
         (node_run n [node_op.set_state (plain_peers 8 [0, 2, 5] 0 0) .ERROR]).info.error))
      = some (.ERROR, none) := by
  decide

/-- C10 as amended: in every node state reached from a node returned by
`pw_node_new` through state requests and completions, the published state is
one of Creating, Suspended, Idle, Running, Error, and whenever `info.error` is
present the published state is Error. -/
theorem reachable_error_only_in_error (w : Peers) (name : String) (async : Bool)
    (props : Option (List (String × String))) (n : pw_node) (ops : List node_op)
    (h : pw_node_new w name async props = .node n) :
    (node_run n ops).info.state
      ∈ [pw_node_state.CREATING, pw_node_state.SUSPENDED, pw_node_state.IDLE,
         pw_node_state.RUNNING, pw_node_state.ERROR]
    ∧ ((node_run n ops).info.error ≠ none → (node_run n ops).info.state = .ERROR) := by
  constructor
  · cases (node_run n ops).info.state <;> simp
  · apply node_run_keeps
    obtain ⟨pr, rfl⟩ := pw_node_new_node w name async props n h
    have h0 : error_only_in_error { node_init name pr with async_init := async } :=
      fun hn => absurd rfl hn
    unfold pw_node_new_finish
    split
    · exact work_queue_add_keeps w _ _ _ h0
    · exact init_complete_keeps w _ h0

/-- C10 as amended, along a run in which a request for Running fails
asynchronously with -5: the node ends published as Error with a diagnostic. -/
theorem reachable_error_only_in_error_witness :
    ∃ n, pw_node_new (plain_peers 8 [0, 2, 5] 0 0) "node" false none = .node n
      ∧ (node_run n
          [node_op.set_state (plain_peers 8 [0, 2, 5] 0 (SPA_RESULT_RETURN_ASYNC 1)) .RUNNING,
           node_op.node_done (plain_peers 8 [0, 2, 5] 0 0) 1 (-5)]).info.error
        = some "error changing node state: -5"
      ∧ ((node_run n
          [node_op.set_state (plain_peers 8 [0, 2, 5] 0 (SPA_RESULT_RETURN_ASYNC 1)) .RUNNING,
           node_op.node_done (plain_peers 8 [0, 2, 5] 0 0) 1 (-5)]).info.error ≠ none →
         (node_run n
          [node_op.set_state (plain_peers 8 [0, 2, 5] 0 (SPA_RESULT_RETURN_ASYNC 1)) .RUNNING,
           node_op.node_done (plain_peers 8 [0, 2, 5] 0 0) 1 (-5)]).info.state = .ERROR) :=
  ⟨_, rfl, by decide,
    (reachable_error_only_in_error (plain_peers 8 [0, 2, 5] 0 0) "node" false none _
      [node_op.set_state (plain_peers 8 [0, 2, 5] 0 (SPA_RESULT_RETURN_ASYNC 1)) .RUNNING,
       node_op.node_done (plain_peers 8 [0, 2, 5] 0 0) 1 (-5)] rfl).2⟩

/-! ## Publishing a state -/

/-- C11: when the requested state differs from the published one,
`pw_node_update_state` appends to the trace exactly one `state_changed(old,
new)` followed by one notification per bound resource, in list order, each
carrying the new info block, whose state is the new state and whose change
mask is `1 << 5`, the state bit; when the two states are equal the node, its
trace and info block included, is left as it was. -/
theorem update_state_signals (node : pw_node) (state : pw_node_state)
    (error : Option String) :
    (node.info.state ≠ state →
      (pw_node_update_state node state error).trace
        = node.trace ++ [Event.state_changed node.info.state state]
          ++ node.resource_list.map
              (fun r => Event.notify_info r (pw_node_update_state node state error).info)
      ∧ (pw_node_update_state node state error).info.state = state
      ∧ (pw_node_update_state node state error).info.error = error
      ∧ (pw_node_update_state node state error).info.change_mask = 1 <<< 5
      ∧ (pw_node_update_state node state error).info.change_mask.testBit 5 = true)
    ∧ (node.info.state = state → pw_node_update_state node state error = node) := by
  constructor
  · intro h
    rw [update_state_diff node state error h]
    refine ⟨rfl, rfl, rfl, rfl, ?_⟩
    show (1 <<< 5 : Nat).testBit 5 = true
    decide
  · exact update_state_same node state error

/-- C11 at a suspended node with the bound resources 7 and 9: publishing
Running emits `state_changed(Suspended, Running)` once and notifies 7 and 9
once each; publishing Suspended changes nothing. -/
theorem update_state_signals_witness :
    ((pw_node_update_state node_bound .RUNNING none).trace.map
        (fun ev => match ev with
          | .state_changed old new => (0, some (old, new))
          | .notify_info r _ => (r, none)
          | _ => (0, none)))
      = [(0, some (.SUSPENDED, .RUNNING)), (7, none), (9, none)]
    ∧ (pw_node_update_state node_bound .RUNNING none).info.change_mask = 32
    ∧ pw_node_update_state node_bound .SUSPENDED none = node_bound :=
  ⟨by decide,
   ((update_state_signals node_bound .RUNNING none).1 (by decide)).2.2.2.1,
   (update_state_signals node_bound .SUSPENDED none).2 rfl⟩

/-! ## Suspending -/

theorem suspend_ports_last (w : Peers) :
    ∀ (ports : List pw_port) (res : Int),
      suspend_ports w ports res = (ports.getLast?.map w.port_set_format).getD res := by
  intro ports
  induction ports with
  | nil => intro res; rfl
  | cons p rest ih =>
    intro res
    rw [suspend_ports, ih, List.getLast?_cons]
    cases rest.getLast? <;> rfl

theorem suspend_ports_append (w : Peers) :
    ∀ (a b : List pw_port) (res : Int),
      suspend_ports w (a ++ b) res = suspend_ports w b (suspend_ports w a res) := by
  intro a
  induction a with
  | nil => intro b res; rfl
  | cons p rest ih =>
    intro b res
    show suspend_ports w (rest ++ b) (w.port_set_format p) = _
    exact ih b _

/-- C12 fails as stated: with two input ports of which the first refuses the
format clear with -1 and the second accepts it, `suspend_node` attempts both
and returns 0, success, although a port failed. -/
theorem suspend_node_forgets_earlier_error :
    (suspend_node (format_peers (fun p => if p.port_id = 0 then -1 else 0)) node_S5).1 = 0
    ∧ (suspend_node (format_peers (fun p => if p.port_id = 0 then -1 else 0)) node_S5).2.trace
      = [Event.port_set_format (linked_input 0 0), Event.port_set_format (linked_input 1 1)]
    ∧ (format_peers (fun p => if p.port_id = 0 then -1 else 0)).port_set_format
        (linked_input 0 0) = -1 := by
  decide

/-- C12 as amended: `suspend_node` attempts to clear the format on every input
port and then on every output port, whatever the results are, and returns the
result of the last port in that order (success when there is no port). -/
theorem suspend_node_returns_last (w : Peers) (node : pw_node) :
    (suspend_node w node).2.trace
      = node.trace ++ (node.input_ports ++ node.output_ports).map Event.port_set_format
    ∧ (suspend_node w node).1
      = (((node.input_ports ++ node.output_ports).getLast?).map w.port_set_format).getD
          SPA_RESULT_OK := by
  constructor
  · rfl
  · rw [← suspend_ports_last, suspend_ports_append]
    rfl

/-- C12 as amended, at two input ports of which only the last refuses. -/
theorem suspend_node_returns_last_witness :
    (suspend_node (format_peers (fun p => if p.port_id = 1 then -7 else 0)) node_S5).1 = -7 :=
  (suspend_node_returns_last (format_peers (fun p => if p.port_id = 1 then -7 else 0))
    node_S5).2

/-! ## Construction over an element that carries info -/

/-- C13, the code where no allocation fails and the element carries info: for
every list of info items, every name, either kind of init and every
caller-supplied property bag, present or absent, `pw_node_new` returns
`NULL`. -/
theorem pw_node_new_with_info_is_null (w : Peers) (items : List (String × String))
    (name : String) (async : Bool) (props : Option (List (String × String))) :
    pw_node_new (info_peers w items) name async props = .null := by
  cases props <;> simp [pw_node_new, info_peers]

/-! ## What observers see at `port_added` and `port_removed` -/

theorem update_ports_drain_view (a : Bool) (P : Event → Prop)
    (hP : ∀ ev, signal_view ev → P ev) :
    ∀ (post : List pw_port) (w : port_walk),
      (∀ ev ∈ w.trace, P ev) → ∀ ev ∈ (update_ports_drain a post w).trace, P ev := by
  intro post
  induction post with
  | nil => intro w h; simpa [update_ports_drain] using h
  | cons p rest ih =>
    intro w h
    rw [update_ports_drain]
    apply ih
    have hrem : P (Event.port_removed p (w.pre ++ p :: rest) (w.map.set p.port_id none)) := by
      apply hP
      constructor
      · intro q ports map heq
        injection heq with h1 h2 h3
        subst h1 h2 h3
        refine ⟨by simp, ?_⟩
        rw [List.getD_eq_getElem?_getD, List.getElem?_set]
        simp only [if_true]
        split <;> rfl
      · intro q ports map heq
        exact Event.noConfusion heq
    have hdes : P (Event.port_destroy p) := by
      apply hP
      constructor <;> intro q ports map heq <;> exact Event.noConfusion heq
    intro ev hev
    cases a <;> simp at hev
    · rcases hev with hev | hev | hev
      · exact h ev hev
      · subst hev; exact hrem
      · subst hev; exact hdes
    · rcases hev with hev | hev
      · exact h ev hev
      · subst hev; exact hdes

theorem update_ports_walk_view (d : pw_direction) (a : Bool) (max : Nat) (P : Event → Prop)
    (hP : ∀ ev, signal_view ev → P ev) :
    ∀ (ids : List Nat) (post : List pw_port) (w : port_walk),
      (∀ id ∈ ids, id < max) → w.map.length = max →
      (∀ ev ∈ w.trace, P ev) → ∀ ev ∈ (update_ports_walk d a ids post w).trace, P ev := by
  intro ids
  induction ids with
  | nil =>
    intro post w _ _ h
    rw [update_ports_walk]
    exact update_ports_drain_view a P hP post w h
  | cons id ids ih =>
    intro post w hid hlen h
    have hids : ∀ j ∈ ids, j < max := fun j hj => hid j (List.mem_cons_of_mem _ hj)
    have hlt : id < w.map.length := by rw [hlen]; exact hid id (List.mem_cons_self _ _)
    have hnew : P (Event.port_new (pw_port_new d id w.next_uid)) := by
      apply hP
      constructor <;> intro q ports map heq <;> exact Event.noConfusion heq
    have hbind : P (Event.port_bind_slot d id) := by
      apply hP
      constructor <;> intro q ports map heq <;> exact Event.noConfusion heq
    have hadd : ∀ ports, pw_port_new d id w.next_uid ∈ ports →
        P (Event.port_added (pw_port_new d id w.next_uid) ports
          (w.map.set id (some (pw_port_new d id w.next_uid)))) := by
      intro ports hmem
      apply hP
      constructor
      · intro q ports map heq
        exact Event.noConfusion heq
      · intro q ports2 map heq
        injection heq with h1 h2 h3
        subst h1 h2 h3
        refine ⟨hmem, ?_⟩
        rw [List.getD_eq_getElem?_getD, List.getElem?_set]
        simp [pw_port_new, hlt]
    cases post with
    | nil =>
      rw [update_ports_walk]
      apply ih _ _ hids (by simp [pw_port_new, hlen])
      intro ev hev
      cases a <;> simp [pw_port_new] at hev
      · rcases hev with hev | hev | hev | hev
        · exact h ev hev
        · subst hev; exact hnew
        · subst hev; exact hbind
        · subst hev; exact hadd _ (by simp [pw_port_new])
      · rcases hev with hev | hev | hev
        · exact h ev hev
        · subst hev; exact hnew
        · subst hev; exact hbind
    | cons p rest =>
      rw [update_ports_walk]
      split
      · exact ih _ _ hids (by simp [hlen]) h
      · apply ih _ _ hids (by simp [pw_port_new, hlen])
        intro ev hev
        cases a <;> simp [pw_port_new] at hev
        · rcases hev with hev | hev | hev | hev
          · exact h ev hev
          · subst hev; exact hnew
          · subst hev; exact hbind
          · subst hev; exact hadd _ (by simp [pw_port_new])
        · rcases hev with hev | hev | hev
          · exact h ev hev
          · subst hev; exact hnew
          · subst hev; exact hbind

/-- C14 fails as stated: synchronous construction over an element that reports
the input ids 1, 3 out of 4 emits `port_removed` for port 1 while the sequence
an observer sees still holds that port (after port 3); its index entry is
empty at that moment. -/
theorem port_removed_sees_port_in_sequence :
    (pw_node_new (plain_peers 4 [1, 3] 0 0) "node" false none).node?.map
        (fun n => n.trace.get? 7)
      = some (some (Event.port_removed (pw_port_new .INPUT 1 0)
          [pw_port_new .INPUT 3 1, pw_port_new .INPUT 1 0]
          [none, none, none, some (pw_port_new .INPUT 3 1)]))
    ∧ pw_port_new .INPUT 1 0 ∈ [pw_port_new .INPUT 3 1, pw_port_new .INPUT 1 0] := by
  decide

/-- C14 as amended: when the authority's ids are below `max_ports` in both
directions, every action `update_port_ids` adds to the trace satisfies: if it
is `port_removed` for a port, that port's index entry is empty and the port
is still a member of the sequence at that moment (it leaves the sequence when
it is destroyed, after the emission); if it is `port_added` for a port, that
port is a member of the sequence and the index entry at its `port_id` is that
port. -/
theorem port_signal_views (e : spa_node) (node : pw_node)
    (hin : ∀ id ∈ e.input_port_ids, id < e.max_input_ports)
    (hout : ∀ id ∈ e.output_port_ids, id < e.max_output_ports) :
    ∀ ev ∈ (update_port_ids (some e) node).trace, ev ∈ node.trace ∨ signal_view ev := by
  simp only [update_port_ids]
  apply update_ports_walk_view .OUTPUT node.async_init e.max_output_ports
    (fun ev => ev ∈ node.trace ∨ signal_view ev) (fun ev h => Or.inr h) _ _ _ hout (by simp)
  apply update_ports_walk_view .INPUT node.async_init e.max_input_ports
    (fun ev => ev ∈ node.trace ∨ signal_view ev) (fun ev h => Or.inr h) _ _ _ hin (by simp)
  intro ev hev
  exact Or.inl hev

/-- C14 as amended, at the reconciliation of synchronous construction over the
input ids 1, 3 out of 4, which emits two `port_added` and one
`port_removed`. -/
theorem port_signal_views_witness :
    (∀ id ∈ (plain_element 4 [1, 3] 0 0).input_port_ids, id < 4)
    ∧ ((update_port_ids (some (plain_element 4 [1, 3] 0 0)) (node_init "node" none)).trace.filter
        is_port_added).length = 2
    ∧ (∀ ev ∈ (update_port_ids (some (plain_element 4 [1, 3] 0 0))
          (node_init "node" none)).trace,
        ev ∈ (node_init "node" none).trace ∨ signal_view ev) :=
  ⟨by decide, by decide,
    port_signal_views (plain_element 4 [1, 3] 0 0) (node_init "node" none)
      (by decide) (by decide)⟩

/-! ## Reconciliation against an unchanged authority -/

theorem pw_node_new_ports_at_init (w : Peers) (name : String) (async : Bool)
    (props : Option (List (String × String))) (n : pw_node)
    (h : pw_node_new w name async props = .node n) :
    ∃ pr, ports_at_init { node_init name pr with async_init := async }
      ∧ n = pw_node_new_finish w (node_init name pr) async := by
  obtain ⟨pr, hn⟩ := pw_node_new_node w name async props n h
  exact ⟨pr, ⟨rfl, rfl, rfl, rfl⟩, hn⟩

end Pipewire
